import Mathlib

/-!
Verification of the travling-server wishlist/session backend.

The embedding below follows the final revision of the server source
(the revision with JWT-protected, owner-scoped wishlist routes):
  - `verifyJWT` / token extraction (cookie first, then bearer header),
  - `POST /users` (atomic upsert keyed by lower-cased email),
  - `POST /wishlist` (duplicate key (email, id) rejected with 409),
  - `POST /wishlist-recommend` (duplicate key (email, hotelId) is an
    idempotent success),
  - `GET /wishlist` (filtered by the caller's email),
  - `DELETE /wishlist/:id` (ObjectId validity guard, delete scoped to
    the caller's email, 404 when nothing was deleted).

MongoDB collections are modelled as Lean lists in insertion order;
`insertOne` appends, `findOne` takes the first match, `find` filters,
`deleteOne` removes the first match.  Mongo ObjectIds are modelled as
naturals; `ObjectId.isValid` accepts a 24-char hex string or a 12-char
byte string, and the constructor succeeds exactly on valid input.
JavaScript string truthiness (absent or empty means falsy) is made
explicit through `jsTruthy?`.
-/

namespace Travling

/-- JavaScript truthiness of an optional string value: `none` models a
missing field and the empty string is falsy, everything else is kept. -/
def jsTruthy? (o : Option String) : Option String :=
  match o with
  | none => none
  | some t => if t = "" then none else some t

/-- `a || b` on optional strings with JavaScript semantics: the right
operand is used when the left one is absent or falsy (empty). -/
def jsOr (a b : Option String) : Option String :=
  match jsTruthy? a with
  | none => b
  | some t => some t

/-- `req.headers.authorization?.startsWith('Bearer ') ?
authorization.split(' ')[1] : null` — the bearer-header part of the
token extraction. -/
def bearerOf (h : Option String) : Option String :=
  match h with
  | none => none
  | some s => if s.startsWith "Bearer " then (s.splitOn " ").get? 1 else none

/-- `req.cookies?.token || (bearer-header value)` — raw token
extraction: named cookie first, authorization header second. -/
def extractToken (cookieToken authHeader : Option String) : Option String :=
  jsOr cookieToken (bearerOf authHeader)

/-- Decoded JWT payload (`req.user`); the only field the handlers read
is `email`. -/
structure Claims where
  email : Option String
deriving DecidableEq, Repr

/-- Outcome of running a protected route: the admission gate either
rejects with 401 (`unauthenticated`), rejects with 403
(`invalidCredential`), or runs the handler on the decoded claims. -/
inductive Protected (A : Type) where
  | unauthenticated
  | invalidCredential
  | ok (a : A)
deriving DecidableEq, Repr

/-- The `verifyJWT` middleware composed with a handler.  `verify`
models `jwt.verify` with the process secret: `none` for any
verification failure (expired, malformed, bad signature), `some d` for
a successfully decoded payload. -/
def runProtected (verify : String → Option Claims)
    (cookieToken authHeader : Option String)
    (handler : Claims → A) : Protected A :=
  match jsTruthy? (extractToken cookieToken authHeader) with
  | none => Protected.unauthenticated
  | some t =>
    match verify t with
    | none => Protected.invalidCredential
    | some d => Protected.ok (handler d)

/-- Hex digit test used by ObjectId validity. -/
def isHexDigit (c : Char) : Bool :=
  c.isDigit || ('a' ≤ c && c ≤ 'f') || ('A' ≤ c && c ≤ 'F')

/-- `ObjectId.isValid` on a string: a 24-character hex string or a
12-character string of single-byte characters. -/
def ObjectId.isValidStr (s : String) : Bool :=
  (s.length == 24 && s.data.all isHexDigit)
    || (s.length == 12 && s.data.all (fun c => c.toNat < 256))

/-- Numeric value of a hex digit. -/
def hexVal (c : Char) : Nat :=
  if c.isDigit then c.toNat - 48
  else if 'a' ≤ c ∧ c ≤ 'f' then c.toNat - 87
  else c.toNat - 55

/-- The 12-byte value of a valid ObjectId string, as a natural. -/
def ObjectId.decode (s : String) : Nat :=
  if s.length = 24 then s.data.foldl (fun a c => a * 16 + hexVal c) 0
  else s.data.foldl (fun a c => a * 256 + c.toNat % 256) 0

/-- `new ObjectId(s)`: succeeds exactly when `s` is syntactically
valid, otherwise the constructor throws (modelled by `none`). -/
def ObjectId.ofString (s : String) : Option Nat :=
  if ObjectId.isValidStr s then some (ObjectId.decode s) else none

/-- A document of the `Favorite` collection.  `oid` is the Mongo `_id`;
`id` is the external item id of plain wishlist items; `hotelId` and
`name` are the recommendation fields; `email` is the owner; `payload`
holds the remaining opaque body fields. -/
structure Item where
  oid : Nat
  id : Option String
  hotelId : Option String
  name : Option String
  email : String
  payload : List (String × String)
  createdAt : Nat
deriving DecidableEq, Repr

/-- The `Favorite` collection in insertion order, together with the
source of fresh ObjectIds for `insertOne`. -/
structure Store where
  items : List Item
  nextId : Nat
deriving DecidableEq, Repr

/-- A parsed request body for the wishlist routes; every field is
optional, mirroring an arbitrary JSON object. -/
structure Body where
  id : Option String
  hotelId : Option String
  name : Option String
  email : Option String
  payload : List (String × String)
deriving DecidableEq, Repr

/-- Result of `POST /wishlist`: 400, 403, 409, or 201 with the
generated id. -/
inductive AddResult where
  | validationError
  | forbiddenNoEmail
  | conflict
  | created (oid : Nat)
deriving DecidableEq, Repr

/-- `POST /wishlist` handler body (after `verifyJWT`): validates
`item.id`, overwrites `item.email` with the token email, rejects a
duplicate `(id, email)` pair with 409, otherwise inserts the item with
a server-side `createdAt`. -/
def addItem (s : Store) (user : Claims) (body? : Option Body) (now : Nat) :
    AddResult × Store :=
  match body? with
  | none => (AddResult.validationError, s)
  | some body =>
    match jsTruthy? body.id with
    | none => (AddResult.validationError, s)
    | some extId =>
      match jsTruthy? user.email with
      | none => (AddResult.forbiddenNoEmail, s)
      | some ue =>
        if s.items.any (fun x => x.id == some extId && x.email == ue) then
          (AddResult.conflict, s)
        else
          (AddResult.created s.nextId,
           { items := s.items ++
               [{ oid := s.nextId, id := some extId, hotelId := body.hotelId,
                  name := body.name, email := ue, payload := body.payload,
                  createdAt := now }],
             nextId := s.nextId + 1 })

/-- Result of `POST /wishlist-recommend`: 400, 403, 200
"Already in wishlist" (success-shaped), or 201 with the generated id. -/
inductive RecommendResult where
  | validationError
  | forbiddenNoEmail
  | alreadyPresent
  | created (oid : Nat)
deriving DecidableEq, Repr

/-- `POST /wishlist-recommend` handler body (after `verifyJWT`):
validates `hotelId` and `name`, overwrites `item.email` with the token
email, answers 200 "Already in wishlist" on a duplicate
`(hotelId, email)` pair, otherwise inserts. -/
def addRecommendation (s : Store) (user : Claims) (body? : Option Body)
    (now : Nat) : RecommendResult × Store :=
  match body? with
  | none => (RecommendResult.validationError, s)
  | some body =>
    match jsTruthy? body.hotelId with
    | none => (RecommendResult.validationError, s)
    | some hid =>
      match jsTruthy? body.name with
      | none => (RecommendResult.validationError, s)
      | some _ =>
        match jsTruthy? user.email with
        | none => (RecommendResult.forbiddenNoEmail, s)
        | some ue =>
          if s.items.any (fun x => x.hotelId == some hid && x.email == ue) then
            (RecommendResult.alreadyPresent, s)
          else
            (RecommendResult.created s.nextId,
             { items := s.items ++
                 [{ oid := s.nextId, id := body.id, hotelId := some hid,
                    name := body.name, email := ue, payload := body.payload,
                    createdAt := now }],
               nextId := s.nextId + 1 })

/-- Result of `GET /wishlist`: 403 when the token carries no email,
otherwise 200 with the caller's items. -/
inductive ListResult where
  | forbiddenNoEmail
  | ok (items : List Item)
deriving DecidableEq, Repr

/-- `GET /wishlist` handler body (after `verifyJWT`):
`find({ email: userEmail })` in natural (insertion) order.  The
handler never reads the request's query parameters; they are passed
here only to state that fact. -/
def listItems (s : Store) (user : Claims)
    (_queryParams : List (String × String)) : ListResult :=
  match jsTruthy? user.email with
  | none => ListResult.forbiddenNoEmail
  | some ue => ListResult.ok (s.items.filter (fun x => x.email == ue))

/-- `deleteOne`: removes the first document matching the predicate,
returning the deleted count (0 or 1) and the remaining collection. -/
def deleteOne (p : Item → Bool) : List Item → Nat × List Item
  | [] => (0, [])
  | x :: xs =>
    if p x then (1, xs)
    else
      let r := deleteOne p xs
      (r.1, x :: r.2)

/-- Result of `DELETE /wishlist/:id`: 400 bad id, 403 no email in
token, 404 nothing deleted, 200 with the deleted count, or the 500
catch-all (reachable only if `new ObjectId` threw past the guard). -/
inductive RemoveResult where
  | invalidId
  | forbiddenNoEmail
  | notFoundOrForbidden
  | deleted (deletedCount : Nat)
  | storeError
deriving DecidableEq, Repr

/-- `DELETE /wishlist/:id` handler body (after `verifyJWT`): guards
`ObjectId.isValid`, then `deleteOne({ _id, email: userEmail })`; a zero
deleted count is reported as 404 "Not found or not authorized". -/
def removeItem (s : Store) (user : Claims) (idStr : String) :
    RemoveResult × Store :=
  if ObjectId.isValidStr idStr then
    match jsTruthy? user.email with
    | none => (RemoveResult.forbiddenNoEmail, s)
    | some ue =>
      match ObjectId.ofString idStr with
      | none => (RemoveResult.storeError, s)
      | some oid =>
        let r := deleteOne (fun x => x.oid == oid && x.email == ue) s.items
        if r.1 = 0 then (RemoveResult.notFoundOrForbidden, { s with items := r.2 })
        else (RemoveResult.deleted r.1, { s with items := r.2 })
  else (RemoveResult.invalidId, s)

/-- A document of the `users` collection. -/
structure UserDoc where
  email : String
  profile : List (String × String)
  createdAt : Nat
  updatedAt : Nat
deriving DecidableEq, Repr

/-- A parsed `POST /users` body: the email field plus the remaining
profile fields (which may themselves contain a `createdAt` key). -/
structure UserBody where
  email : Option String
  profile : List (String × String)
deriving DecidableEq, Repr

/-- `const { createdAt, ...restUser } = user` — drop any client-sent
`createdAt` field. -/
def stripCreatedAt (p : List (String × String)) : List (String × String) :=
  p.filter (fun kv => kv.1 ≠ "createdAt")

/-- Mongo `$set` on the profile fields: keys of `upd` overwrite, the
other keys of `base` are kept. -/
def setFields (base upd : List (String × String)) : List (String × String) :=
  base.filter (fun kv => upd.all (fun kv2 => kv2.1 ≠ kv.1)) ++ upd

/-- Result of `POST /users`: 400 when the email is missing, otherwise
200 (`inserted` when the upsert created the document). -/
inductive UpsertResult where
  | validationError
  | inserted
  | updated
deriving DecidableEq, Repr

/-- `$set` applied to the first user document matching the normalized
email; `none` when no document matches. -/
def updateFirst (email : String) (rest : List (String × String)) (now : Nat) :
    List UserDoc → Option (List UserDoc)
  | [] => none
  | u :: us =>
    if u.email = email then
      some ({ email := email, profile := setFields u.profile rest,
              createdAt := u.createdAt, updatedAt := now } :: us)
    else (updateFirst email rest now us).map (u :: ·)

/-- `POST /users` handler body: requires a truthy email, lower-cases
it, strips `createdAt` from the body, then
`updateOne({ email }, { $set: {...rest, email, updatedAt},
$setOnInsert: { createdAt } }, { upsert: true })`. -/
def upsertUser (us : List UserDoc) (body : UserBody) (now : Nat) :
    UpsertResult × List UserDoc :=
  match jsTruthy? body.email with
  | none => (UpsertResult.validationError, us)
  | some rawEmail =>
    let email := rawEmail.toLower
    let rest := stripCreatedAt body.profile
    match updateFirst email rest now us with
    | some us2 => (UpsertResult.updated, us2)
    | none =>
      (UpsertResult.inserted,
       us ++ [{ email := email, profile := rest,
                createdAt := now, updatedAt := now }])

/-- Number of plain wishlist items stored under the dedup key
`(owner, externalId)`. -/
def countKey (s : Store) (owner extId : String) : Nat :=
  (s.items.filter (fun x => x.id == some extId && x.email == owner)).length

/-- Number of recommendation items stored under the dedup key
`(owner, hotelId)`. -/
def countHotel (s : Store) (owner hid : String) : Nat :=
  (s.items.filter (fun x => x.hotelId == some hid && x.email == owner)).length

end Travling

namespace Travling

/-! ### Helper lemmas -/

theorem jsTruthy_some {t : String} (h : t ≠ "") : jsTruthy? (some t) = some t := by
  simp [jsTruthy?, h]

theorem deleteOne_of_no_match (p : Item → Bool) (l : List Item)
    (h : ∀ x ∈ l, p x = false) : deleteOne p l = (0, l) := by
  induction l with
  | nil => rfl
  | cons y ys ih =>
    have hy : p y = false := h y (List.mem_cons_self y ys)
    have ht : deleteOne p ys = (0, ys) :=
      ih (fun x hx => h x (List.mem_cons_of_mem y hx))
    simp [deleteOne, hy, ht]

theorem deleteOne_sublist (p : Item → Bool) (l : List Item) :
    (deleteOne p l).2.Sublist l := by
  induction l with
  | nil => simp [deleteOne]
  | cons y ys ih =>
    by_cases hy : p y
    · simp [deleteOne, hy, List.sublist_cons_self y ys]
    · simpa [deleteOne, hy] using List.Sublist.cons₂ y ih

theorem deleteOne_length (p : Item → Bool) (l : List Item) :
    l.length ≤ (deleteOne p l).2.length + 1 := by
  induction l with
  | nil => simp [deleteOne]
  | cons y ys ih =>
    by_cases hy : p y
    · simp [deleteOne, hy]
    · simpa [deleteOne, hy, Nat.succ_le_succ_iff] using ih

theorem deleteOne_dropped_matches (p : Item → Bool) (l : List Item) (x : Item)
    (hx : x ∈ l) (hnx : x ∉ (deleteOne p l).2) : p x = true := by
  induction l with
  | nil => cases hx
  | cons y ys ih =>
    by_cases hy : p y
    · rcases List.mem_cons.mp hx with rfl | hmem
      · exact hy
      · exact absurd hmem (by simpa [deleteOne, hy] using hnx)
    · have hres : x ∉ y :: (deleteOne p ys).2 := by simpa [deleteOne, hy] using hnx
      rcases List.mem_cons.mp hx with rfl | hmem
      · exact absurd (List.mem_cons_self x _) hres
      · exact ih hmem (fun hm => hres (List.mem_cons_of_mem y hm))

end Travling

namespace Travling

/-! ### C1 — owner-scoped listing -/

/-- Claim C1: for every owner `O`, `GET /wishlist` returns exactly the
items whose `email` equals `O`, as a sublist of the collection (so in
insertion order), never another owner's item, and its answer is
independent of the query parameters supplied by the caller. -/
theorem listItems_owner_scoped (s : Store) (user : Claims)
    (qp qp2 : List (String × String)) (e : String)
    (he : jsTruthy? user.email = some e) :
    listItems s user qp
      = ListResult.ok (s.items.filter (fun x => x.email == e)) ∧
    (∀ x ∈ s.items.filter (fun x => x.email == e), x.email = e) ∧
    (s.items.filter (fun x => x.email == e)).Sublist s.items ∧
    listItems s user qp = listItems s user qp2 := by
  refine ⟨by simp [listItems, he], ?_, List.filter_sublist _,
    by simp [listItems, he]⟩
  intro x hx
  have hmem := List.mem_filter.mp hx
  simpa using hmem.2

/-- Concrete run of C1: a two-owner store listed by the first owner. -/
theorem listItems_owner_scoped_witness :
    listItems
        ⟨[⟨0, some "h1", none, none, "a@x.com", [], 1⟩,
          ⟨1, some "h2", none, none, "b@x.com", [], 2⟩], 2⟩
        ⟨some "a@x.com"⟩ []
      = ListResult.ok
          (([⟨0, some "h1", none, none, "a@x.com", [], 1⟩,
             ⟨1, some "h2", none, none, "b@x.com", [], 2⟩] : List Item).filter
            (fun x => x.email == "a@x.com")) :=
  (listItems_owner_scoped _ _ [] [("page", "2")] "a@x.com" (by decide)).1

/-! ### C8 — token extraction sources -/

/-- Claim C8: the raw token comes from the session cookie first; only
when the cookie carries no token is the bearer part of the
authorization header used; when both are absent the result is absent. -/
theorem extractToken_cookie_then_bearer (c h : Option String) :
    (∀ t, c = some t → t ≠ "" → extractToken c h = some t) ∧
    (jsTruthy? c = none → extractToken c h = bearerOf h) ∧
    (c = none → h = none → extractToken c h = none) := by
  refine ⟨?_, ?_, ?_⟩
  · rintro t rfl ht
    simp [extractToken, jsOr, jsTruthy?, ht]
  · intro hc
    simp [extractToken, jsOr, hc]
  · rintro rfl rfl
    rfl

/-- Concrete run of C8: a cookie token wins over a bearer header. -/
theorem extractToken_cookie_then_bearer_witness :
    extractToken (some "cookieTok") (some "Bearer headerTok")
      = some "cookieTok" :=
  (extractToken_cookie_then_bearer (some "cookieTok")
      (some "Bearer headerTok")).1 "cookieTok" rfl (by decide)

/-! ### C6 — admission gate -/

/-- Claim C6: a protected route answers 401 when no (truthy) token is
extracted, 403 when a token is extracted but `jwt.verify` rejects it
(expired, malformed or bad signature are all collapsed into the
rejection), and otherwise runs the handler on the verified claims. -/
theorem runProtected_auth_gate {A : Type} (verify : String → Option Claims)
    (c h : Option String) (handler : Claims → A) :
    (jsTruthy? (extractToken c h) = none →
       runProtected verify c h handler = Protected.unauthenticated) ∧
    (∀ t, jsTruthy? (extractToken c h) = some t → verify t = none →
       runProtected verify c h handler = Protected.invalidCredential) ∧
    (∀ t d, jsTruthy? (extractToken c h) = some t → verify t = some d →
       runProtected verify c h handler = Protected.ok (handler d)) := by
  refine ⟨fun h0 => by simp [runProtected, h0],
          fun t ht hv => by simp [runProtected, ht, hv],
          fun t d ht hv => by simp [runProtected, ht, hv]⟩

/-- A sample verifier accepting exactly one token, for the C6 witness. -/
def verifySample : String → Option Claims :=
  fun t => if t = "goodtoken" then some ⟨some "alice@x.com"⟩ else none

/-- Concrete run of C6: a cookie token that verifies reaches the
handler with the subject email. -/
theorem runProtected_auth_gate_witness :
    runProtected verifySample (some "goodtoken") none Claims.email
      = Protected.ok (some "alice@x.com") :=
  (runProtected_auth_gate verifySample (some "goodtoken") none
      Claims.email).2.2 "goodtoken" ⟨some "alice@x.com"⟩ (by decide) (by decide)

end Travling

namespace Travling

/-! ### C7 — identifier guard on delete -/

/-- Claim C7: a syntactically invalid `:id` makes `DELETE /wishlist/:id`
answer 400 with the store untouched; a valid `:id` makes the ObjectId
constructor succeed, so the handler's catch branch (the only way to a
500 here) is unreachable on every input. -/
theorem removeItem_invalid_id_guard (s : Store) (user : Claims)
    (idStr : String) :
    (ObjectId.isValidStr idStr = false →
       removeItem s user idStr = (RemoveResult.invalidId, s)) ∧
    (ObjectId.isValidStr idStr = true →
       (ObjectId.ofString idStr).isSome = true) ∧
    (removeItem s user idStr).1 ≠ RemoveResult.storeError := by
  refine ⟨fun hv => by simp [removeItem, hv],
          fun hv => by simp [ObjectId.ofString, hv], ?_⟩
  rcases Bool.eq_false_or_eq_true (ObjectId.isValidStr idStr) with hv | hv
  · cases he : jsTruthy? user.email with
    | none => simp [removeItem, hv, he]
    | some e =>
      have ho : ObjectId.ofString idStr = some (ObjectId.decode idStr) := by
        simp [ObjectId.ofString, hv]
      simp only [removeItem, hv, if_true, he, ho]
      split <;> simp
  · simp [removeItem, hv]

/-- Concrete run of C7: a six-character id is rejected with 400 and an
empty store stays empty. -/
theorem removeItem_invalid_id_guard_witness :
    removeItem ⟨[], 0⟩ ⟨some "a@x.com"⟩ "nothex"
      = (RemoveResult.invalidId, ⟨[], 0⟩) :=
  (removeItem_invalid_id_guard ⟨[], 0⟩ ⟨some "a@x.com"⟩ "nothex").1 (by decide)

/-! ### C2 — delete of a missing or foreign item -/

/-- Claim C2: when no stored item carries both the requested `_id` and
the caller's email — the id may be absent altogether or belong to a
different owner — `DELETE /wishlist/:id` answers the single 404
"Not found or not authorized" outcome and leaves the store unchanged,
so the two cases are indistinguishable to the caller. -/
theorem removeItem_not_found_or_forbidden (s : Store) (user : Claims)
    (idStr e : String) (oid : Nat)
    (hv : ObjectId.isValidStr idStr = true)
    (he : jsTruthy? user.email = some e)
    (ho : ObjectId.ofString idStr = some oid)
    (hnone : ∀ x ∈ s.items, ¬(x.oid = oid ∧ x.email = e)) :
    removeItem s user idStr = (RemoveResult.notFoundOrForbidden, s) := by
  have hall : ∀ x ∈ s.items, (x.oid == oid && x.email == e) = false := by
    intro x hx
    rw [Bool.eq_false_iff]
    intro hb
    exact hnone x hx (by simpa [Bool.and_eq_true, beq_iff_eq] using hb)
  have hdel := deleteOne_of_no_match _ s.items hall
  simp [removeItem, hv, he, ho, hdel]

/-- Concrete run of C2: the stored item has the requested `_id` but
belongs to another owner, and the caller gets the same 404 as for a
missing id, with the item intact. -/
theorem removeItem_not_found_or_forbidden_witness :
    removeItem ⟨[⟨0, some "h1", none, none, "b@x.com", [], 1⟩], 1⟩
        ⟨some "a@x.com"⟩ "000000000000000000000000"
      = (RemoveResult.notFoundOrForbidden,
         ⟨[⟨0, some "h1", none, none, "b@x.com", [], 1⟩], 1⟩) :=
  removeItem_not_found_or_forbidden
    ⟨[⟨0, some "h1", none, none, "b@x.com", [], 1⟩], 1⟩
    ⟨some "a@x.com"⟩ "000000000000000000000000" "a@x.com" 0
    (by decide) (by decide) (by decide) (by decide)

/-! ### C10 — frame effect of delete -/

/-- The store after `DELETE /wishlist/:id` is either untouched or its
items are the result of one `deleteOne` scoped to the parsed id and the
caller's email. -/
theorem removeItem_store_cases (s : Store) (user : Claims) (idStr : String) :
    (removeItem s user idStr).2 = s ∨
    ∃ oid e, ObjectId.ofString idStr = some oid ∧
      jsTruthy? user.email = some e ∧
      (removeItem s user idStr).2.items
        = (deleteOne (fun x => x.oid == oid && x.email == e) s.items).2 := by
  rcases Bool.eq_false_or_eq_true (ObjectId.isValidStr idStr) with hv | hv
  · cases he : jsTruthy? user.email with
    | none => left; simp [removeItem, hv, he]
    | some e =>
      cases ho : ObjectId.ofString idStr with
      | none => left; simp [removeItem, hv, he, ho]
      | some oid =>
        right
        refine ⟨oid, e, rfl, rfl, ?_⟩
        simp only [removeItem, hv, if_true, he, ho]
        split <;> rfl
  · left
    simp [removeItem, hv]

/-- Claim C10: `DELETE /wishlist/:id` keeps the remaining items a
sublist of the old store (order and contents intact), deletes at most
one item, and any item that disappeared matched both the requested id
and the caller's email. -/
theorem removeItem_frame (s : Store) (user : Claims) (idStr : String) :
    (removeItem s user idStr).2.items.Sublist s.items ∧
    s.items.length ≤ (removeItem s user idStr).2.items.length + 1 ∧
    (∀ x ∈ s.items, x ∉ (removeItem s user idStr).2.items →
       ∃ oid e, ObjectId.ofString idStr = some oid ∧
         jsTruthy? user.email = some e ∧ x.oid = oid ∧ x.email = e) := by
  rcases removeItem_store_cases s user idStr with hsame | ⟨oid, e, ho, he, hitems⟩
  · rw [hsame]
    exact ⟨List.Sublist.refl _, Nat.le_succ _, fun x hx hnx => absurd hx hnx⟩
  · rw [hitems]
    refine ⟨deleteOne_sublist _ _, deleteOne_length _ _, ?_⟩
    intro x hx hnx
    have hp := deleteOne_dropped_matches _ _ _ hx hnx
    have hpe : x.oid = oid ∧ x.email = e := by
      simpa [Bool.and_eq_true, beq_iff_eq] using hp
    exact ⟨oid, e, ho, he, hpe.1, hpe.2⟩

/-- Concrete run of C10: deleting from a one-item store removes at most
one item and the result is a sublist of the original. -/
theorem removeItem_frame_witness :
    (removeItem ⟨[⟨0, some "h1", none, none, "a@x.com", [], 1⟩], 1⟩
        ⟨some "a@x.com"⟩ "000000000000000000000000").2.items.Sublist
      [⟨0, some "h1", none, none, "a@x.com", [], 1⟩] ∧
    ([⟨0, some "h1", none, none, "a@x.com", [], 1⟩] : List Item).length ≤
      (removeItem ⟨[⟨0, some "h1", none, none, "a@x.com", [], 1⟩], 1⟩
          ⟨some "a@x.com"⟩ "000000000000000000000000").2.items.length + 1 :=
  ⟨(removeItem_frame ⟨[⟨0, some "h1", none, none, "a@x.com", [], 1⟩], 1⟩
      ⟨some "a@x.com"⟩ "000000000000000000000000").1,
   (removeItem_frame ⟨[⟨0, some "h1", none, none, "a@x.com", [], 1⟩], 1⟩
      ⟨some "a@x.com"⟩ "000000000000000000000000").2.1⟩

end Travling

namespace Travling

/-! ### Helpers for the duplicate-key claims -/

theorem filter_length_one_of_any {α : Type} {l : List α} {q : α → Bool}
    (hany : l.any q = true) (hle : (l.filter q).length ≤ 1) :
    (l.filter q).length = 1 := by
  rcases List.any_eq_true.mp hany with ⟨y, hy, hq⟩
  have hmem : y ∈ l.filter q := List.mem_filter.mpr ⟨hy, hq⟩
  have hne : l.filter q ≠ [] := List.ne_nil_of_mem hmem
  have hpos : 0 < (l.filter q).length := List.length_pos.mpr hne
  omega

theorem any_append_singleton (l : List Item) (w : Item) (q : Item → Bool)
    (hw : q w = true) : (l ++ [w]).any q = true := by
  rw [List.any_append]
  simp [hw]

theorem addItem_conflict_eq (s : Store) (user : Claims) (b : Body) (t : Nat)
    (extId ue : String)
    (hid : jsTruthy? b.id = some extId)
    (he : jsTruthy? user.email = some ue)
    (hany : (s.items.any fun y => y.id == some extId && y.email == ue) = true) :
    addItem s user (some b) t = (AddResult.conflict, s) := by
  simp [addItem, hid, he, hany]

theorem addItem_created_eq (s : Store) (user : Claims) (b : Body) (t : Nat)
    (extId ue : String)
    (hid : jsTruthy? b.id = some extId)
    (he : jsTruthy? user.email = some ue)
    (hany : (s.items.any fun y => y.id == some extId && y.email == ue) = false) :
    addItem s user (some b) t
      = (AddResult.created s.nextId,
         { items := s.items ++
             [{ oid := s.nextId, id := some extId, hotelId := b.hotelId,
                name := b.name, email := ue, payload := b.payload,
                createdAt := t }],
           nextId := s.nextId + 1 }) := by
  simp [addItem, hid, he, hany]

/-! ### C3 — duplicate plain add is a conflict -/

/-- Claim C3: with at most one stored copy of the key
`(owner, externalId)` — the store-level uniqueness invariant — adding
the same external id twice for the same owner leaves exactly one stored
item under that key, the second call answers 409 Conflict, and the
second call does not change the store. -/
theorem addItem_duplicate_conflict (s : Store) (owner extId : String)
    (b1 b2 : Body) (t1 t2 : Nat)
    (howner : owner ≠ "") (hE : extId ≠ "")
    (h1 : b1.id = some extId) (h2 : b2.id = some extId)
    (hcount : countKey s owner extId ≤ 1) :
    (addItem (addItem s ⟨some owner⟩ (some b1) t1).2
        ⟨some owner⟩ (some b2) t2).1 = AddResult.conflict ∧
    countKey (addItem (addItem s ⟨some owner⟩ (some b1) t1).2
        ⟨some owner⟩ (some b2) t2).2 owner extId = 1 ∧
    (addItem (addItem s ⟨some owner⟩ (some b1) t1).2
        ⟨some owner⟩ (some b2) t2).2
      = (addItem s ⟨some owner⟩ (some b1) t1).2 := by
  have hje : jsTruthy? (some owner) = some owner := jsTruthy_some howner
  have h1t : jsTruthy? b1.id = some extId := by rw [h1]; exact jsTruthy_some hE
  have h2t : jsTruthy? b2.id = some extId := by rw [h2]; exact jsTruthy_some hE
  by_cases hany :
      s.items.any (fun y => y.id == some extId && y.email == owner) = true
  · have hfst : addItem s ⟨some owner⟩ (some b1) t1 = (AddResult.conflict, s) := by
      simp [addItem, h1t, hje, hany]
    have hsnd : addItem s ⟨some owner⟩ (some b2) t2 = (AddResult.conflict, s) := by
      simp [addItem, h2t, hje, hany]
    rw [hfst]
    exact ⟨by rw [hsnd], by rw [hsnd]; exact filter_length_one_of_any hany hcount,
           by rw [hsnd]⟩
  · have hanyf :
        s.items.any (fun y => y.id == some extId && y.email == owner) = false :=
      Bool.eq_false_iff.mpr hany
    rw [addItem_created_eq s ⟨some owner⟩ b1 t1 extId owner h1t hje hanyf]
    set it1 : Item :=
      { oid := s.nextId, id := some extId, hotelId := b1.hotelId,
        name := b1.name, email := owner, payload := b1.payload,
        createdAt := t1 } with hit
    have hq : (it1.id == some extId && it1.email == owner) = true := by
      rw [hit]
      simp
    have hany2 :
        ((s.items ++ [it1]).any fun y => y.id == some extId && y.email == owner)
          = true :=
      any_append_singleton s.items it1 _ hq
    have hsnd := addItem_conflict_eq
      ({ items := s.items ++ [it1], nextId := s.nextId + 1 } : Store)
      ⟨some owner⟩ b2 t2 extId owner h2t hje hany2
    have hnil : s.items.filter (fun y => y.id == some extId && y.email == owner)
        = [] := by
      rw [List.filter_eq_nil_iff]
      intro a ha hpa
      exact hany (List.any_eq_true.mpr ⟨a, ha, hpa⟩)
    rw [hsnd]
    refine ⟨rfl, ?_, rfl⟩
    simp [countKey, List.filter_append, hnil, hq]

/-- Concrete run of C3: saving hotel "h1" twice for the same owner, the
second body even claiming a different email, yields 409 and one item. -/
theorem addItem_duplicate_conflict_witness :
    (addItem (addItem ⟨[], 0⟩ ⟨some "a@x.com"⟩
        (some ⟨some "h1", none, none, none, []⟩) 1).2 ⟨some "a@x.com"⟩
        (some ⟨some "h1", none, none, some "evil@x.com", []⟩) 2).1
      = AddResult.conflict ∧
    countKey (addItem (addItem ⟨[], 0⟩ ⟨some "a@x.com"⟩
        (some ⟨some "h1", none, none, none, []⟩) 1).2 ⟨some "a@x.com"⟩
        (some ⟨some "h1", none, none, some "evil@x.com", []⟩) 2).2
        "a@x.com" "h1" = 1 ∧
    (addItem (addItem ⟨[], 0⟩ ⟨some "a@x.com"⟩
        (some ⟨some "h1", none, none, none, []⟩) 1).2 ⟨some "a@x.com"⟩
        (some ⟨some "h1", none, none, some "evil@x.com", []⟩) 2).2
      = (addItem ⟨[], 0⟩ ⟨some "a@x.com"⟩
          (some ⟨some "h1", none, none, none, []⟩) 1).2 :=
  addItem_duplicate_conflict ⟨[], 0⟩ "a@x.com" "h1"
    ⟨some "h1", none, none, none, []⟩
    ⟨some "h1", none, none, some "evil@x.com", []⟩ 1 2
    (by decide) (by decide) rfl rfl (by decide)

end Travling

namespace Travling

/-! ### C4 — duplicate recommendation add is an idempotent success -/

theorem addRecommendation_already_eq (s : Store) (user : Claims) (b : Body)
    (t : Nat) (hid ue : String)
    (hh : jsTruthy? b.hotelId = some hid)
    (hn : (jsTruthy? b.name).isSome = true)
    (he : jsTruthy? user.email = some ue)
    (hany : (s.items.any fun y => y.hotelId == some hid && y.email == ue)
      = true) :
    addRecommendation s user (some b) t = (RecommendResult.alreadyPresent, s) := by
  rcases Option.isSome_iff_exists.mp hn with ⟨nm, hnm⟩
  simp [addRecommendation, hh, hnm, he, hany]

theorem addRecommendation_created_eq (s : Store) (user : Claims) (b : Body)
    (t : Nat) (hid ue : String)
    (hh : jsTruthy? b.hotelId = some hid)
    (hn : (jsTruthy? b.name).isSome = true)
    (he : jsTruthy? user.email = some ue)
    (hany : (s.items.any fun y => y.hotelId == some hid && y.email == ue)
      = false) :
    addRecommendation s user (some b) t
      = (RecommendResult.created s.nextId,
         { items := s.items ++
             [{ oid := s.nextId, id := b.id, hotelId := some hid,
                name := b.name, email := ue, payload := b.payload,
                createdAt := t }],
           nextId := s.nextId + 1 }) := by
  rcases Option.isSome_iff_exists.mp hn with ⟨nm, hnm⟩
  simp [addRecommendation, hh, hnm, he, hany]

/-- Claim C4: with at most one stored copy of the key
`(owner, hotelId)` — the store-level uniqueness invariant — adding the
same hotel recommendation twice for the same owner leaves exactly one
stored item under that key, and the second call succeeds with the 200
"Already in wishlist" answer instead of an error, changing nothing. -/
theorem addRecommendation_idempotent (s : Store) (owner hid : String)
    (b1 b2 : Body) (t1 t2 : Nat)
    (howner : owner ≠ "") (hH : hid ≠ "")
    (h1 : b1.hotelId = some hid) (h2 : b2.hotelId = some hid)
    (hn1 : (jsTruthy? b1.name).isSome = true)
    (hn2 : (jsTruthy? b2.name).isSome = true)
    (hcount : countHotel s owner hid ≤ 1) :
    (addRecommendation (addRecommendation s ⟨some owner⟩ (some b1) t1).2
        ⟨some owner⟩ (some b2) t2).1 = RecommendResult.alreadyPresent ∧
    countHotel (addRecommendation (addRecommendation s ⟨some owner⟩ (some b1) t1).2
        ⟨some owner⟩ (some b2) t2).2 owner hid = 1 ∧
    (addRecommendation (addRecommendation s ⟨some owner⟩ (some b1) t1).2
        ⟨some owner⟩ (some b2) t2).2
      = (addRecommendation s ⟨some owner⟩ (some b1) t1).2 := by
  have hje : jsTruthy? (some owner) = some owner := jsTruthy_some howner
  have h1t : jsTruthy? b1.hotelId = some hid := by
    rw [h1]; exact jsTruthy_some hH
  have h2t : jsTruthy? b2.hotelId = some hid := by
    rw [h2]; exact jsTruthy_some hH
  by_cases hany :
      s.items.any (fun y => y.hotelId == some hid && y.email == owner) = true
  · have hfst := addRecommendation_already_eq s ⟨some owner⟩ b1 t1 hid owner
      h1t hn1 hje hany
    have hsnd := addRecommendation_already_eq s ⟨some owner⟩ b2 t2 hid owner
      h2t hn2 hje hany
    rw [hfst]
    exact ⟨by rw [hsnd], by rw [hsnd]; exact filter_length_one_of_any hany hcount,
           by rw [hsnd]⟩
  · have hanyf :
        s.items.any (fun y => y.hotelId == some hid && y.email == owner) = false :=
      Bool.eq_false_iff.mpr hany
    rw [addRecommendation_created_eq s ⟨some owner⟩ b1 t1 hid owner h1t hn1 hje
      hanyf]
    set it1 : Item :=
      { oid := s.nextId, id := b1.id, hotelId := some hid,
        name := b1.name, email := owner, payload := b1.payload,
        createdAt := t1 } with hit
    have hq : (it1.hotelId == some hid && it1.email == owner) = true := by
      rw [hit]
      simp
    have hany2 :
        ((s.items ++ [it1]).any
            fun y => y.hotelId == some hid && y.email == owner) = true :=
      any_append_singleton s.items it1 _ hq
    have hsnd := addRecommendation_already_eq
      ({ items := s.items ++ [it1], nextId := s.nextId + 1 } : Store)
      ⟨some owner⟩ b2 t2 hid owner h2t hn2 hje hany2
    have hnil :
        s.items.filter (fun y => y.hotelId == some hid && y.email == owner)
          = [] := by
      rw [List.filter_eq_nil_iff]
      intro a ha hpa
      exact hany (List.any_eq_true.mpr ⟨a, ha, hpa⟩)
    rw [hsnd]
    refine ⟨rfl, ?_, rfl⟩
    simp [countHotel, List.filter_append, hnil, hq]

/-- Concrete run of C4: recommending hotel "H9" twice for the same
owner yields the success-shaped "already present" answer and one item. -/
theorem addRecommendation_idempotent_witness :
    (addRecommendation (addRecommendation ⟨[], 0⟩ ⟨some "a@x.com"⟩
        (some ⟨none, some "H9", some "Sea View", none, []⟩) 1).2 ⟨some "a@x.com"⟩
        (some ⟨none, some "H9", some "Sea View", some "b@x.com", []⟩) 2).1
      = RecommendResult.alreadyPresent ∧
    countHotel (addRecommendation (addRecommendation ⟨[], 0⟩ ⟨some "a@x.com"⟩
        (some ⟨none, some "H9", some "Sea View", none, []⟩) 1).2 ⟨some "a@x.com"⟩
        (some ⟨none, some "H9", some "Sea View", some "b@x.com", []⟩) 2).2
        "a@x.com" "H9" = 1 ∧
    (addRecommendation (addRecommendation ⟨[], 0⟩ ⟨some "a@x.com"⟩
        (some ⟨none, some "H9", some "Sea View", none, []⟩) 1).2 ⟨some "a@x.com"⟩
        (some ⟨none, some "H9", some "Sea View", some "b@x.com", []⟩) 2).2
      = (addRecommendation ⟨[], 0⟩ ⟨some "a@x.com"⟩
          (some ⟨none, some "H9", some "Sea View", none, []⟩) 1).2 :=
  addRecommendation_idempotent ⟨[], 0⟩ "a@x.com" "H9"
    ⟨none, some "H9", some "Sea View", none, []⟩
    ⟨none, some "H9", some "Sea View", some "b@x.com", []⟩ 1 2
    (by decide) (by decide) rfl rfl (by decide) (by decide) (by decide)

end Travling

namespace Travling

/-! ### C9 — ownership comes from the verified token -/

/-- Claim C9: after either authenticated add operation, every item in
the store either was already there or carries the token email as its
owner; and the result of either operation is identical whatever email
the request body claims, since the handler overwrites it. -/
theorem add_owner_from_token (s : Store) (user : Claims) (b : Body) (t : Nat)
    (e : String) (he : jsTruthy? user.email = some e) :
    (∀ x ∈ (addItem s user (some b) t).2.items, x ∈ s.items ∨ x.email = e) ∧
    (∀ x ∈ (addRecommendation s user (some b) t).2.items,
       x ∈ s.items ∨ x.email = e) ∧
    (∀ em2, addItem s user (some { b with email := em2 }) t
       = addItem s user (some b) t) ∧
    (∀ em2, addRecommendation s user (some { b with email := em2 }) t
       = addRecommendation s user (some b) t) := by
  refine ⟨?_, ?_, fun em2 => rfl, fun em2 => rfl⟩
  · intro x hx
    cases hid : jsTruthy? b.id with
    | none =>
      left
      simpa [addItem, hid] using hx
    | some extId =>
      by_cases hany :
          s.items.any (fun y => y.id == some extId && y.email == e) = true
      · left
        have := addItem_conflict_eq s user b t extId e hid he hany
        rw [this] at hx
        exact hx
      · have hanyf := Bool.eq_false_iff.mpr hany
        have := addItem_created_eq s user b t extId e hid he hanyf
        rw [this] at hx
        rcases List.mem_append.mp hx with hmem | hmem
        · exact Or.inl hmem
        · right
          rw [List.mem_singleton] at hmem
          rw [hmem]
  · intro x hx
    cases hh : jsTruthy? b.hotelId with
    | none =>
      left
      simpa [addRecommendation, hh] using hx
    | some hid =>
      cases hn : jsTruthy? b.name with
      | none =>
        left
        simpa [addRecommendation, hh, hn] using hx
      | some nm =>
        by_cases hany :
            s.items.any (fun y => y.hotelId == some hid && y.email == e) = true
        · left
          have := addRecommendation_already_eq s user b t hid e hh
            (by rw [hn]; rfl) he hany
          rw [this] at hx
          exact hx
        · have hanyf := Bool.eq_false_iff.mpr hany
          have := addRecommendation_created_eq s user b t hid e hh
            (by rw [hn]; rfl) he hanyf
          rw [this] at hx
          rcases List.mem_append.mp hx with hmem | hmem
          · exact Or.inl hmem
          · right
            rw [List.mem_singleton] at hmem
            rw [hmem]

/-- Concrete run of C9: a body claiming someone else's email gives the
same result as one claiming none — ownership is taken from the token. -/
theorem add_owner_from_token_witness :
    addItem ⟨[], 0⟩ ⟨some "a@x.com"⟩
        (some ⟨some "h1", none, none, some "evil@x.com", []⟩) 3
      = addItem ⟨[], 0⟩ ⟨some "a@x.com"⟩
          (some ⟨some "h1", none, none, none, []⟩) 3 :=
  (add_owner_from_token ⟨[], 0⟩ ⟨some "a@x.com"⟩
      ⟨some "h1", none, none, none, []⟩ 3 "a@x.com" (by decide)).2.2.1
    (some "evil@x.com")

end Travling

namespace Travling

/-! ### C5 — upsert keeps the original createdAt -/

theorem updateFirst_eq_none (email : String) (rest : List (String × String))
    (now : Nat) (us : List UserDoc) (h : ∀ u ∈ us, u.email ≠ email) :
    updateFirst email rest now us = none := by
  induction us with
  | nil => rfl
  | cons u us ih =>
    have hu : u.email ≠ email := h u (List.mem_cons_self u us)
    have ht := ih (fun v hv => h v (List.mem_cons_of_mem u hv))
    simp [updateFirst, hu, ht]

theorem updateFirst_append_last (email : String) (rest : List (String × String))
    (now : Nat) (us : List UserDoc) (w : UserDoc)
    (h : ∀ u ∈ us, u.email ≠ email) (hw : w.email = email) :
    updateFirst email rest now (us ++ [w])
      = some (us ++ [{ email := email, profile := setFields w.profile rest,
                       createdAt := w.createdAt, updatedAt := now }]) := by
  induction us with
  | nil => simp [updateFirst, hw]
  | cons u us ih =>
    have hu : u.email ≠ email := h u (List.mem_cons_self u us)
    have ht := ih (fun v hv => h v (List.mem_cons_of_mem u hv))
    simp [updateFirst, hu, ht]

/-- Claim C5: upserting the same (truthy) email twice, starting from a
directory that has no user under its normalized form, first inserts a
record with `createdAt = updatedAt = t1`, then updates it in place: the
final directory holds exactly one record for the normalized email, its
`createdAt` still equals `t1`, its `updatedAt` equals `t2`, and its
profile is the first call's fields overwritten by the second call's
(`createdAt` stripped from both bodies). -/
theorem upsertUser_preserves_createdAt (us : List UserDoc) (e : String)
    (p1 p2 : List (String × String)) (t1 t2 : Nat)
    (he : e ≠ "")
    (hnew : ∀ u ∈ us, u.email ≠ e.toLower) :
    upsertUser us ⟨some e, p1⟩ t1
      = (UpsertResult.inserted,
         us ++ [{ email := e.toLower, profile := stripCreatedAt p1,
                  createdAt := t1, updatedAt := t1 }]) ∧
    upsertUser (us ++ [{ email := e.toLower, profile := stripCreatedAt p1,
                         createdAt := t1, updatedAt := t1 }]) ⟨some e, p2⟩ t2
      = (UpsertResult.updated,
         us ++ [{ email := e.toLower,
                  profile := setFields (stripCreatedAt p1) (stripCreatedAt p2),
                  createdAt := t1, updatedAt := t2 }]) ∧
    ((us ++ [({ email := e.toLower,
                profile := setFields (stripCreatedAt p1) (stripCreatedAt p2),
                createdAt := t1, updatedAt := t2 } : UserDoc)]).filter
        (fun u => u.email == e.toLower))
      = [{ email := e.toLower,
           profile := setFields (stripCreatedAt p1) (stripCreatedAt p2),
           createdAt := t1, updatedAt := t2 }] := by
  have hje : jsTruthy? (some e) = some e := jsTruthy_some he
  have hupd1 := updateFirst_eq_none e.toLower (stripCreatedAt p1) t1 us hnew
  refine ⟨by simp [upsertUser, hje, hupd1], ?_, ?_⟩
  · have h2 := updateFirst_append_last e.toLower (stripCreatedAt p2) t2 us
      ({ email := e.toLower, profile := stripCreatedAt p1,
         createdAt := t1, updatedAt := t1 }) hnew rfl
    simp [upsertUser, hje, h2]
  · rw [List.filter_append]
    have hnil : us.filter (fun u => u.email == e.toLower) = [] := by
      rw [List.filter_eq_nil_iff]
      intro u hu
      simpa using hnew u hu
    simp [hnil]

/-- Concrete run of C5: registering `A@X.com` with one profile and then
again with another keeps the first `createdAt` and updates the rest. -/
theorem upsertUser_preserves_createdAt_witness :
    upsertUser [] ⟨some "A@X.com", [("name", "tonmoy")]⟩ 1
      = (UpsertResult.inserted,
         [{ email := "A@X.com".toLower,
            profile := stripCreatedAt [("name", "tonmoy")],
            createdAt := 1, updatedAt := 1 }]) ∧
    upsertUser [{ email := "A@X.com".toLower,
                  profile := stripCreatedAt [("name", "tonmoy")],
                  createdAt := 1, updatedAt := 1 }]
        ⟨some "A@X.com", [("name", "tt"), ("city", "dhaka")]⟩ 2
      = (UpsertResult.updated,
         [{ email := "A@X.com".toLower,
            profile := setFields (stripCreatedAt [("name", "tonmoy")])
              (stripCreatedAt [("name", "tt"), ("city", "dhaka")]),
            createdAt := 1, updatedAt := 2 }]) ∧
    ([{ email := "A@X.com".toLower,
        profile := setFields (stripCreatedAt [("name", "tonmoy")])
          (stripCreatedAt [("name", "tt"), ("city", "dhaka")]),
        createdAt := 1, updatedAt := 2 }] : List UserDoc).filter
        (fun u => u.email == "A@X.com".toLower)
      = [{ email := "A@X.com".toLower,
           profile := setFields (stripCreatedAt [("name", "tonmoy")])
             (stripCreatedAt [("name", "tt"), ("city", "dhaka")]),
           createdAt := 1, updatedAt := 2 }] :=
  upsertUser_preserves_createdAt [] "A@X.com" [("name", "tonmoy")]
    [("name", "tt"), ("city", "dhaka")] 1 2 (by decide) (by simp)

end Travling
